import Mathlib

/-!
Shallow embedding of the core algorithmic pieces of
`src/src/App.jsx` ("Operador — Controle de Acordos"): text
normalisation, identity keys, header detection, row normalisation,
the promise store, the reconciliation (merge/compose) engine, the
temporal classifier, the bulk phone selector and the WhatsApp link
builder, together with theorems settling the specification claims.
-/

set_option maxHeartbeats 1000000

namespace Acordos

/-- Milliseconds in a day (`MS_DAY` in the source, line 314). -/
def MS_DAY : Int := 24 * 60 * 60 * 1000

/-- Whitespace as removed by JS `String.prototype.trim` (the ASCII forms). -/
def isJsWs (c : Char) : Bool :=
  c == ' ' || c == '\t' || c == '\n' || c == '\r'

/-- Models `s.trim()`: drop leading and trailing whitespace. -/
def jsTrim (s : String) : String :=
  String.mk (((s.toList.dropWhile isJsWs).reverse.dropWhile isJsWs).reverse)

/-- Models `onlyDigits` (source line 41): `String(s || '').replace(/\D/g, '')`. -/
def onlyDigits (s : String) : String :=
  String.mk (s.toList.filter Char.isDigit)

/-- Does the pattern (first argument) occur at the head of the second list? -/
def leadsWith : List Char → List Char → Bool
  | [], _ => true
  | _ :: _, [] => false
  | a :: as, b :: bs => a == b && leadsWith as bs

/-- Models `s.startsWith(pat)`. -/
def strLeads (s pat : String) : Bool :=
  leadsWith pat.toList s.toList

/-- Does the pattern occur somewhere in the list? -/
def hasSub (pat : List Char) : List Char → Bool
  | [] => pat.isEmpty
  | c :: rest => leadsWith pat (c :: rest) || hasSub pat rest

/-- Models `s.includes(pat)`. -/
def includesStr (s pat : String) : Bool :=
  hasSub pat.toList s.toList

/-- JS `toLowerCase` on the characters that occur in this app's inputs:
ASCII letters plus the precomposed Latin accented capitals. -/
def jsLower (c : Char) : Char :=
  match c with
  | 'Á' => 'á' | 'À' => 'à' | 'Â' => 'â' | 'Ã' => 'ã' | 'Ä' => 'ä'
  | 'É' => 'é' | 'È' => 'è' | 'Ê' => 'ê' | 'Ë' => 'ë'
  | 'Í' => 'í' | 'Ì' => 'ì' | 'Î' => 'î' | 'Ï' => 'ï'
  | 'Ó' => 'ó' | 'Ò' => 'ò' | 'Ô' => 'ô' | 'Õ' => 'õ' | 'Ö' => 'ö'
  | 'Ú' => 'ú' | 'Ù' => 'ù' | 'Û' => 'û' | 'Ü' => 'ü'
  | 'Ç' => 'ç' | 'Ñ' => 'ñ'
  | _ => c.toLower

/-- The effect of `normalize('NFD').replace(/[̀-ͯ]/g, '')` on
precomposed Latin letters: decompose and drop the combining mark,
i.e. map the accented letter to its base letter. -/
def stripAccent (c : Char) : Char :=
  match c with
  | 'á' | 'à' | 'â' | 'ã' | 'ä' => 'a'
  | 'é' | 'è' | 'ê' | 'ë' => 'e'
  | 'í' | 'ì' | 'î' | 'ï' => 'i'
  | 'ó' | 'ò' | 'ô' | 'õ' | 'ö' => 'o'
  | 'ú' | 'ù' | 'û' | 'ü' => 'u'
  | 'ç' => 'c'
  | 'ñ' => 'n'
  | _ => c

/-- Characters kept by `replace(/[^a-z0-9 ]/g, ' ')`. -/
def isKeep (c : Char) : Bool :=
  ('a' ≤ c && c ≤ 'z') || ('0' ≤ c && c ≤ '9') || c == ' '

/-- Models `replace(/\s+/g, ' ')` after every non-kept character became a space:
collapse runs of spaces (the boolean tracks "previous output was a space"). -/
def collapseAux : Bool → List Char → List Char
  | _, [] => []
  | prev, c :: rest =>
    if c == ' ' then
      if prev then collapseAux true rest else ' ' :: collapseAux true rest
    else c :: collapseAux false rest

/-- Trim the spaces (the only whitespace left at that stage) at both ends. -/
def trimSpaces (cs : List Char) : List Char :=
  ((cs.dropWhile (· == ' ')).reverse.dropWhile (· == ' ')).reverse

/-- Models `norm` (source lines 31-40): trim, lower-case, strip accents, map every
character outside `[a-z0-9 ]` to a space, collapse space runs, trim. -/
def norm (s : String) : String :=
  let cs := (((jsTrim s).toList.map jsLower).map stripAccent).map
    (fun c => if isKeep c then c else ' ')
  String.mk (trimSpaces (collapseAux false cs))

/-- A point in time: the calendar day (days since the Unix epoch, local
time) plus milliseconds into that day.  Models a JS `Date` under a no-DST
clock: the timestamp is `days * MS_DAY + ms` and the calendar day
(`getFullYear`/`getMonth`/`getDate`) is `days`. -/
structure JDate where
  days : Int
  ms : Nat
deriving DecidableEq, Repr

/-- Models `Date.prototype.getTime`. -/
def getTime (t : JDate) : Int := t.days * MS_DAY + (t.ms : Int)

/-- Models `new Date(d.getFullYear(), d.getMonth(), d.getDate())`: midnight of
`d`'s calendar day. -/
def midnight (t : JDate) : JDate := ⟨t.days, 0⟩

/-- Models `sameDay` (source lines 61-69): year/month/day equality, i.e. equality
of the calendar day. -/
def sameDay (a b : JDate) : Bool := a.days == b.days

/-- JS `<` on `Date` objects compares timestamps. -/
def jdLt (a b : JDate) : Bool := decide (getTime a < getTime b)

/-- Days since 1970-01-01 of the civil date `y-m-d` (`m` in 1..12); the
standard days-from-civil computation, used to model `new Date(y, m-1, d)`. -/
def daysFromCivil (y m d : Int) : Int :=
  let y' := if m ≤ 2 then y - 1 else y
  let era := (if 0 ≤ y' then y' else y' - 399).fdiv 400
  let yoe := y' - era * 400
  let mp := (m + 9) % 12
  let doy := (153 * mp + 2).fdiv 5 + d - 1
  let doe := yoe * 365 + yoe.fdiv 4 - yoe.fdiv 100 + doy
  era * 146097 + doe - 719468

/-- A raw spreadsheet cell as delivered by `sheet_to_json` (string, number,
or a native date object). -/
inductive Cell where
  | str (s : String)
  | num (n : Int)
  | date (d : JDate)
deriving DecidableEq, Repr

/-- Models `String(cell)`.  A native `Date`'s JS rendering is abstracted as a
fixed non-empty placeholder. -/
def cellToString : Cell → String
  | .str s => s
  | .num n => toString n
  | .date _ => "[Date]"

/-- Models `value || ''`: JS falsiness (the number 0 and the empty string are
falsy) before the string branches of `excelToDate`. -/
def cellOrEmpty : Cell → String
  | .str s => s
  | .num n => if n == 0 then "" else toString n
  | .date d => cellToString (.date d)

/-- The numeric value of a decimal digit character. -/
def digitVal (c : Char) : Int := Int.ofNat (c.toNat - '0'.toNat)

/-- Models `s.match(/^(\d{2})\/(\d{2})\/(\d{4})$/)` followed by
`new Date(Number(m[3]), Number(m[2]) - 1, Number(m[1]))`. -/
def parseDDMMYYYY (s : String) : Option JDate :=
  match s.toList with
  | [d1, d2, '/', m1, m2, '/', y1, y2, y3, y4] =>
    if d1.isDigit && d2.isDigit && m1.isDigit && m2.isDigit &&
        y1.isDigit && y2.isDigit && y3.isDigit && y4.isDigit then
      some ⟨daysFromCivil
        (digitVal y1 * 1000 + digitVal y2 * 100 + digitVal y3 * 10 + digitVal y4)
        (digitVal m1 * 10 + digitVal m2)
        (digitVal d1 * 10 + digitVal d2), 0⟩
    else none
  | _ => none

/-- Models `XLSX.SSF.parse_date_code(value)` followed by `new Date(d.y, d.m-1, d.d)`,
modelled through the 1900-system serial offset (exact for the post-1900-bug
serials spreadsheets actually produce); non-positive serials fail. -/
def excelSerialToDate (n : Int) : Option JDate :=
  if 0 < n then some ⟨n - 25569, 0⟩ else none

/-- The string tail of `excelToDate`: trim, try `DD/MM/YYYY`, then hand the
string to the ambient generic JS date parser `gp` (modelling `new Date(s)`;
`none` models an invalid date). -/
def excelToDateStr (gp : String → Option JDate) (raw : String) : Option JDate :=
  let s := jsTrim raw
  match parseDDMMYYYY s with
  | some d => some d
  | none => gp s

/-- Models `excelToDate` (source lines 44-60): a native date is taken as is, a
number goes through the spreadsheet serial conversion, then the string
branches run; `none` models the `null` return. -/
def excelToDate (gp : String → Option JDate) (v : Cell) : Option JDate :=
  match v with
  | .date d => some d
  | .num n =>
    match excelSerialToDate n with
    | some d => some d
    | none => excelToDateStr gp (cellOrEmpty (.num n))
  | .str s => excelToDateStr gp (cellOrEmpty (.str s))

/-- The two record provenances (`_source`). -/
inductive Source where
  | manual
  | excel
deriving DecidableEq, Repr

/-- One working-set record — the row shape produced by `mapRow`,
`manualRows` and `composeRows`.  `rid` is the source's `_id`; a field a
given producer leaves absent in JS holds the empty-string / `none`
default.  `VencimentoISO`/`PromessaISO` hold ISO strings in the source;
the due date is carried here as the date it encodes (`none` for `''`),
while the promise overlay only ever needs JS truthiness and copying, so it
stays a string. -/
structure Row where
  rid : String := ""
  CPF : String := ""
  Nome : String := ""
  Valor : Cell := .str ""
  VencimentoISO : Option JDate := none
  Telefone : String := ""
  TipoNegociacao : String := ""
  Status : String := ""
  Obs : String := ""
  PromessaISO : String := ""
  source : Source := .excel
  createdAt : String := ""
deriving DecidableEq, Repr

/-- Models `keyForClientLike` (source lines 119-125). -/
def keyForClientLike (r : Row) : String :=
  let cpf := onlyDigits r.CPF
  if cpf ≠ "" ∧ 8 ≤ cpf.length then "cpf:" ++ cpf
  else
    let tel := onlyDigits r.Telefone
    if tel ≠ "" ∧ 10 ≤ tel.length then "tel:" ++ tel
    else ""

/-- Models `looksCpf` inside `findHeaderRow` (source lines 131-140). -/
def looksCpf (cell : Cell) : Bool :=
  let t := norm (cellToString cell)
  t == "cpf" || includesStr t "cpf" || includesStr t "cpf cnpj" ||
    includesStr t "cpf/cnpj" || includesStr t "documento"

/-- Models `looksNome` inside `findHeaderRow` (source lines 142-145). -/
def looksNome (cell : Cell) : Bool :=
  let t := norm (cellToString cell)
  t == "nome" || includesStr t "nome" || includesStr t "cliente"

/-- One scan row satisfies both anchors — the `cpfOk`/`nomeOk` flags of the
inner loop of `findHeaderRow`, which hold iff some cell satisfies each
predicate. -/
def rowBoth (row : List Cell) : Bool :=
  row.any looksCpf && row.any looksNome

/-- The non-empty-cell count of the fallback loop (source lines 159-164). -/
def filledCount (row : List Cell) : Nat :=
  (row.filter (fun c => !(jsTrim (cellToString c) == ""))).length

/-- First index `i`, scanning `fuel` indices upward from `i₀`, where the
predicate holds — the `for (let i = ...; i < maxScan; i++)` loops. -/
def firstIdxAux (p : Nat → Bool) : Nat → Nat → Option Nat
  | _, 0 => none
  | i, fuel + 1 => if p i then some i else firstIdxAux p (i + 1) fuel

/-- Models `findHeaderRow` (source lines 128-167): scan at most the first 25 rows
for a row with both anchor labels, fall back to the first row with at least
3 non-empty cells, finally to row 0.  `aoa[i] || []` is `getD i []`. -/
def findHeaderRow (aoa : List (List Cell)) : Nat :=
  let maxScan := min 25 aoa.length
  match firstIdxAux (fun i => rowBoth (aoa.getD i [])) 0 maxScan with
  | some i => i
  | none =>
    match firstIdxAux (fun i => decide (3 ≤ filledCount (aoa.getD i []))) 0 maxScan with
    | some i => i
    | none => 0

/-- Models `getBy` inside `mapRow` (source lines 172-178): the value of the first
column whose normalised header name satisfies the predicate, else `''`. -/
def getBy (pred : String → Bool) : List (String × Cell) → Cell
  | [] => .str ""
  | (k, v) :: rest => if pred (norm k) then v else getBy pred rest

/-- Header triggers for the national-id column (source lines 180-187). -/
def cpfKey (k : String) : Bool :=
  k == "cpf" || includesStr k "cpf" || includesStr k "cpf cnpj" ||
    includesStr k "cpf/cnpj" || includesStr k "documento"

/-- Header triggers for the name column (source lines 189-191). -/
def nomeKey (k : String) : Bool :=
  k == "nome" || includesStr k "nome" || includesStr k "cliente"

/-- Header triggers for the amount column (source lines 193-200). -/
def valorKey (k : String) : Bool :=
  k == "valor" || includesStr k "valor" || includesStr k "vlr" ||
    includesStr k "parcela" || includesStr k "acordo"

/-- Header triggers for the due-date column (source lines 202-210). -/
def vencKey (k : String) : Bool :=
  k == "data" || includesStr k "venc" || includesStr k "vencimento" ||
    includesStr k "data venc" || includesStr k "dt venc" || includesStr k "vcto"

/-- Header triggers for the phone column (source lines 212-219). -/
def telKey (k : String) : Bool :=
  includesStr k "tel" || includesStr k "fone" || includesStr k "cel" ||
    includesStr k "contato" || includesStr k "whats"

/-- Header triggers for the negotiation-type column (source lines 221-227). -/
def tipoKey (k : String) : Bool :=
  includesStr k "tipo" || includesStr k "negoci" || includesStr k "tipo de negoci" ||
    includesStr k "modalidade"

/-- Header triggers for the status column (source lines 229-236). -/
def statusKey (k : String) : Bool :=
  k == "status" || includesStr k "status" || includesStr k "situacao" ||
    includesStr k "sit" || includesStr k "pag"

/-- Header triggers for the notes column (source lines 238-245). -/
def obsKey (k : String) : Bool :=
  includesStr k "obs" || includesStr k "observacao" || includesStr k "observação" ||
    includesStr k "coment" || includesStr k "anot"

/-- Models `mapRow` (source lines 169-259): select each canonical field by the
first matching header, parse the due date, trim string fields.  `gp` is
the ambient generic JS date parser threaded into `excelToDate`. -/
def mapRow (gp : String → Option JDate) (raw : List (String × Cell)) : Row :=
  { CPF := jsTrim (cellToString (getBy cpfKey raw))
    Nome := jsTrim (cellToString (getBy nomeKey raw))
    Valor := getBy valorKey raw
    VencimentoISO := excelToDate gp (getBy vencKey raw)
    Telefone := jsTrim (cellToString (getBy telKey raw))
    TipoNegociacao := jsTrim (cellToString (getBy tipoKey raw))
    Status := jsTrim (cellToString (getBy statusKey raw))
    Obs := jsTrim (cellToString (getBy obsKey raw)) }

/-- The survival filter `(r) => r.CPF || r.Nome || r.Telefone` applied to
the mapped rows (source line 559). -/
def keepRow (r : Row) : Bool :=
  !(r.CPF == "") || !(r.Nome == "") || !(r.Telefone == "")

/-- The import pipeline after header detection (source lines 557-561):
map, drop blank rows, assign positional ids. -/
def loadRows (gp : String → Option JDate) (json : List (List (String × Cell))) : List Row :=
  ((json.map (mapRow gp)).filter keepRow).mapIdx
    (fun i r => { r with rid := toString (i + 1) })

/-- Models `buildWhatsLinkBR` (source lines 302-307); `enc` is the ambient
`encodeURIComponent`. -/
def buildWhatsLinkBR (enc : String → String) (telefoneComDDD message : String) : String :=
  let d := onlyDigits telefoneComDDD
  let e164 := if strLeads d "55" then d else "55" ++ d
  if e164.length < 12 then ""
  else "https://wa.me/" ++ e164 ++ "?text=" ++ enc message

/-- The normalised phone after forcing the "55" country code — the `e164`
of `buildWhatsLinkBR` and of `bulkPhones`. -/
def forced55 (tel : String) : String :=
  let d := onlyDigits tel
  if strLeads d "55" then d else "55" ++ d

/-- The `snapshot` of a promise payload (source lines 926-931). -/
structure Snapshot where
  Nome : String := ""
  Telefone : String := ""
  CPF : String := ""
  Valor : Cell := .str ""
deriving DecidableEq, Repr

/-- A promise payload (source lines 922-932). -/
structure Payload where
  promiseISO : String := ""
  updatedAt : String := ""
  note : String := ""
  snapshot : Snapshot := {}
deriving DecidableEq, Repr

/-- The promise store: a JS object keyed by identity key, i.e. an
insertion-ordered association list with unique keys. -/
abbrev PromMap := List (String × Payload)

/-- Models `promises[k]` (first entry with the key, if any). -/
def lookupProm (k : String) : PromMap → Option Payload
  | [] => none
  | (k', v) :: rest => if k' = k then some v else lookupProm k rest

/-- Models `delete next[key]` on the spread copy: drop the entry with the key. -/
def objDelete (k : String) : PromMap → PromMap
  | [] => []
  | (k', v) :: rest =>
    if k' = k then objDelete k rest else (k', v) :: objDelete k rest

/-- Models `next[key] = payload` on the spread copy: update in place if the key
exists, else append (JS object key order). -/
def objAssign (k : String) (v : Payload) : PromMap → PromMap
  | [] => [(k, v)]
  | (k', v') :: rest =>
    if k' = k then (k, v) :: rest else (k', v') :: objAssign k v rest

/-- Models `upsertPromiseByKey` (source lines 453-463): a `null` payload deletes
the key, otherwise the payload is stored under the key. -/
def upsertPromiseByKey (key : String) (payloadOrNull : Option Payload)
    (prev : PromMap) : PromMap :=
  match payloadOrNull with
  | none => objDelete key prev
  | some p => objAssign key p prev

/-- The per-row body of `mergePromisesIntoRows` (source lines 466-471):
`const p = k ? promises?.[k] : null; if (!p?.promiseISO) return r;
return { ...r, PromessaISO: p.promiseISO };`. -/
def applyPromise (promises : PromMap) (r : Row) : Row :=
  match (if keyForClientLike r = "" then none
      else lookupProm (keyForClientLike r) promises) with
  | none => r
  | some p =>
    if p.promiseISO = "" then r else { r with PromessaISO := p.promiseISO }

/-- Models `mergePromisesIntoRows` (source lines 465-472). -/
def mergePromisesIntoRows (promises : PromMap) (inRows : List Row) : List Row :=
  inRows.map (applyPromise promises)

/-- A stored manual client — the item shape saved by `saveManualClient`
(source lines 595-607). -/
structure MClient where
  rid : String := ""
  CPF : String := ""
  Nome : String := ""
  Valor : Cell := .str ""
  VencimentoISO : Option JDate := none
  Telefone : String := ""
  TipoNegociacao : String := ""
  Status : String := ""
  Obs : String := ""
  PromessaISO : String := ""
  createdAt : String := ""
deriving DecidableEq, Repr

/-- Models `manualRows` (source lines 475-490): manual clients as working-set
rows tagged `manual`. -/
def manualRowsOf (manualClients : List MClient) : List Row :=
  manualClients.map (fun c =>
    { rid := c.rid, CPF := c.CPF, Nome := c.Nome, Valor := c.Valor,
      VencimentoISO := c.VencimentoISO, Telefone := c.Telefone,
      TipoNegociacao := c.TipoNegociacao, Status := c.Status, Obs := c.Obs,
      PromessaISO := c.PromessaISO, source := .manual,
      createdAt := c.createdAt })

/-- Models `composeRows` (source lines 492-495): tag the imported rows, put the
manual rows first, overlay the promises. -/
def composeRows (manualRows : List Row) (promises : PromMap)
    (importedRows : List Row) : List Row :=
  mergePromisesIntoRows promises
    (manualRows ++ importedRows.map (fun r => { r with source := Source.excel }))

/-- Models `vencDate` (source lines 415-417): the stored ISO string decoded back
to the date it encodes (`null` for `''`). -/
def vencDate (r : Row) : Option JDate := r.VencimentoISO

/-- Models `isPago` (source lines 418-420). -/
def isPago (r : Row) : Bool := includesStr (norm r.Status) "pago"

/-- Models `venceHoje` (source lines 421-424); `today` is the ambient current
date (`new Date()`). -/
def venceHoje (today : JDate) (r : Row) : Bool :=
  match vencDate r with
  | some d => sameDay d today && !isPago r
  | none => false

/-- Models `atrasado` (source lines 425-428); `midnight today` is `baseHoje`. -/
def atrasado (today : JDate) (r : Row) : Bool :=
  match vencDate r with
  | some d => jdLt d (midnight today) && !isPago r
  | none => false

/-- Models `daysLate` (source lines 429-435). -/
def daysLate (today : JDate) (r : Row) : Int :=
  match vencDate r with
  | none => 0
  | some d => (getTime (midnight today) - getTime (midnight d)).fdiv MS_DAY

/-- Models `phones.join('\n')` at the end of `bulkPhones`. -/
def joinLines : List String → String
  | [] => ""
  | [x] => x
  | x :: y :: rest => x ++ "\n" ++ joinLines (y :: rest)

/-- Models `bulkPhones` (source lines 663-669): digits of each phone, keep the
non-empty ones with at least 10 digits, force the "55" country code,
join with newlines. -/
def bulkPhones (list : List Row) : String :=
  joinLines (((list.map (fun r => onlyDigits r.Telefone)).filter
      (fun d => !(d == "") && decide (10 ≤ d.length))).map
      (fun d => if strLeads d "55" then d else "55" ++ d))

/-- The `QUEBRAS` (breach) predicate of `copyBulkFromCurrentView`
(source line 690): `atrasado(r) && daysLate(r) > 5 && !isPago(r)`. -/
def quebrasFilter (today : JDate) (r : Row) : Bool :=
  atrasado today r && decide (5 < daysLate today r) && !isPago r

/-- Bulk selection in breach (`QUEBRAS`) mode over the current filtered
view (source lines 688-693). -/
def copyBulkQuebras (today : JDate) (view : List Row) : String :=
  bulkPhones (view.filter (quebrasFilter today))

/-- Spec-side per-record phone normalisation of the Bulk Selector: strip
non-digits, discard below 10 digits, force the "55" country code. -/
def fmtPhone (tel : String) : Option String :=
  let d := onlyDigits tel
  if 10 ≤ d.length then some (if strLeads d "55" then d else "55" ++ d)
  else none

/-- Spec-side breach selection: the records that are overdue, not paid and
more than 5 days late, in view order, each phone normalised. -/
def selectPhonesBreachSpec (today : JDate) (view : List Row) : List String :=
  (view.filter (fun r =>
      atrasado today r && !isPago r && decide (5 < daysLate today r))).filterMap
    (fun r => fmtPhone r.Telefone)

/-- The app state the promise-removal flow touches: the current working
set and the promise store. -/
structure AppState where
  rows : List Row
  promises : PromMap
deriving Repr

/-- Models `removePromiseByKey` (source lines 993-998): delete the payload with
`upsertPromiseByKey(key, null)`, then recompute the working set with
`setRows((prev) => mergePromisesIntoRows(prev))`.  The recompute is
charitably given the post-delete store (the React closure actually still
reads the pre-delete one, which can only retain more overlay data); the
`confirm` dialog and the toast are UI. -/
def removePromiseByKey (key : String) (st : AppState) : AppState :=
  let promises' := upsertPromiseByKey key none st.promises
  { rows := mergePromisesIntoRows promises' st.rows, promises := promises' }

/-- A concrete imported row whose national id has 8 digits. -/
def c1Base : Row := { rid := "1", CPF := "123.456-78", Nome := "A" }

/-- A concrete promise payload with a promise date. -/
def c1Payload : Payload := { promiseISO := "2025-01-01T00:00:00.000Z" }

/-- The promise store holding `c1Payload` under `c1Base`'s identity key. -/
def c1Store : PromMap := upsertPromiseByKey "cpf:12345678" (some c1Payload) []

/-- The app state after the overlay was applied to the working set. -/
def c1State : AppState :=
  { rows := mergePromisesIntoRows c1Store [c1Base], promises := c1Store }

/-- The app state after the promise is removed and the working set is
recomputed, as `removePromiseByKey` does. -/
def c1After : AppState := removePromiseByKey "cpf:12345678" c1State

/-- A concrete sheet: a banner row, then the header row. -/
def c3Aoa : List (List Cell) :=
  [[Cell.str "Relatorio"], [Cell.str "CPF", Cell.str "Nome", Cell.str "Valor"]]

/-- A concrete current date for the bulk-selection instance. -/
def c7Today : JDate := ⟨20000, 0⟩

/-- Overdue by 6 days, unpaid. -/
def c7r1 : Row :=
  { Nome := "R1", Telefone := "11 99999-0000", VencimentoISO := some ⟨19994, 0⟩ }

/-- Overdue by 10 days but paid. -/
def c7r2 : Row :=
  { Nome := "R2", Telefone := "11 97777-0000", VencimentoISO := some ⟨19990, 0⟩,
    Status := "PAGO" }

/-- Due today, unpaid. -/
def c7r3 : Row :=
  { Nome := "R3", Telefone := "11 96666-0000", VencimentoISO := some ⟨20000, 0⟩ }

/-- Overdue by 10 days, unpaid. -/
def c7r4 : Row :=
  { Nome := "R4", Telefone := "11 98888-0000", VencimentoISO := some ⟨19990, 0⟩ }

/-- Overdue by 3 days, unpaid (the 1-5 band, not a breach). -/
def c7r5 : Row :=
  { Nome := "R5", Telefone := "11 95555-0000", VencimentoISO := some ⟨19997, 0⟩ }

/-- A concrete 5-record view with exactly two breach records. -/
def c7View : List Row := [c7r1, c7r2, c7r3, c7r4, c7r5]

/-- A paid record whose due date is the same calendar day as `c6Today`. -/
def c6Paid : Row := { Status := "pago", VencimentoISO := some ⟨100, 0⟩ }

/-- The concrete current date for the `daysLate` boundary instances. -/
def c6Today : JDate := ⟨100, 3600000⟩

/-- The day after `c6Today`, with some time of day. -/
def c6Tomorrow : JDate := ⟨101, 42⟩

/-- An unpaid record whose due date is the same calendar day as `c6Today`. -/
def c6Unpaid : Row := { Status := "", VencimentoISO := some ⟨100, 7⟩ }

/-- A paid record due on `c5Today`'s calendar day. -/
def c5Paid : Row := { Status := "Pago", VencimentoISO := some ⟨50, 0⟩ }

/-- A concrete current date for the paid-suppression instance. -/
def c5Today : JDate := ⟨50, 999⟩

/-! Helper lemmas -/

theorem firstIdxAux_eq_some (p : Nat → Bool) :
    ∀ (fuel i j : Nat), i ≤ j → j < i + fuel → p j = true →
      (∀ k, i ≤ k → k < j → p k = false) → firstIdxAux p i fuel = some j := by
  intro fuel
  induction fuel with
  | zero => intro i j h1 h2 _ _; omega
  | succ n ih =>
    intro i j h1 h2 hpj hmin
    by_cases hpi : p i = true
    · have hij : i = j := by
        by_contra hne
        have hlt : i < j := by omega
        have := hmin i (Nat.le_refl i) hlt
        rw [this] at hpi
        exact Bool.noConfusion hpi
      subst hij
      simp [firstIdxAux, hpi]
    · have hpi' : p i = false := by
        cases h : p i
        · rfl
        · exact absurd h hpi
      have hij : i < j := by
        rcases Nat.lt_or_ge i j with h | h
        · exact h
        · have : i = j := by omega
          subst this
          rw [hpj] at hpi'
          exact Bool.noConfusion hpi'
      simp only [firstIdxAux, hpi', Bool.false_eq_true, if_false]
      exact ih (i + 1) j (by omega) (by omega) hpj
        (fun k hk1 hk2 => hmin k (by omega) hk2)

theorem firstIdxAux_eq_none (p : Nat → Bool) :
    ∀ (fuel i : Nat), (∀ k, i ≤ k → k < i + fuel → p k = false) →
      firstIdxAux p i fuel = none := by
  intro fuel
  induction fuel with
  | zero => intro i _; rfl
  | succ n ih =>
    intro i h
    have hpi : p i = false := h i (Nat.le_refl i) (by omega)
    simp only [firstIdxAux, hpi, Bool.false_eq_true, if_false]
    exact ih (i + 1) (fun k hk1 hk2 => h k (by omega) (by omega))

theorem lookupProm_objAssign_ne (k k' : String) (p : Payload) (hne : k' ≠ k) :
    ∀ (m : PromMap), lookupProm k' (objAssign k p m) = lookupProm k' m := by
  have hkk : ¬ (k = k') := fun h => hne h.symm
  intro m
  induction m with
  | nil => simp [objAssign, lookupProm, hkk]
  | cons a rest ih =>
    obtain ⟨ka, va⟩ := a
    by_cases hk : ka = k
    · subst hk
      simp [objAssign, lookupProm, hkk]
    · by_cases h2 : ka = k'
      · simp [objAssign, lookupProm, hk, h2, hne]
      · simp [objAssign, lookupProm, hk, h2, ih]

theorem lookupProm_objDelete_ne (k k' : String) (hne : k' ≠ k) :
    ∀ (m : PromMap), lookupProm k' (objDelete k m) = lookupProm k' m := by
  have hkk : ¬ (k = k') := fun h => hne h.symm
  intro m
  induction m with
  | nil => rfl
  | cons a rest ih =>
    obtain ⟨ka, va⟩ := a
    by_cases hk : ka = k
    · subst hk
      simp [objDelete, lookupProm, hkk, ih]
    · by_cases h2 : ka = k'
      · simp [objDelete, lookupProm, hk, h2, hne]
      · simp [objDelete, lookupProm, hk, h2, ih]

theorem lookupProm_objDelete_self (k : String) :
    ∀ (m : PromMap), lookupProm k (objDelete k m) = none := by
  intro m
  induction m with
  | nil => rfl
  | cons a rest ih =>
    obtain ⟨ka, va⟩ := a
    by_cases hk : ka = k
    · simp [objDelete, hk, ih]
    · simp [objDelete, lookupProm, hk, ih]

theorem keyForClientLike_applyPromise (ps : PromMap) (r : Row) :
    keyForClientLike (applyPromise ps r) = keyForClientLike r := by
  cases h : (if keyForClientLike r = "" then none
      else lookupProm (keyForClientLike r) ps) with
  | none =>
    unfold applyPromise
    simp only [h]
  | some p =>
    unfold applyPromise
    simp only [h]
    by_cases hp : p.promiseISO = ""
    · rw [if_pos hp]
    · rw [if_neg hp]
      rfl

theorem applyPromise_idem (ps : PromMap) (r : Row) :
    applyPromise ps (applyPromise ps r) = applyPromise ps r := by
  cases h : (if keyForClientLike r = "" then none
      else lookupProm (keyForClientLike r) ps) with
  | none =>
    have a1 : applyPromise ps r = r := by
      unfold applyPromise
      simp only [h]
    rw [a1]
    exact a1
  | some p =>
    by_cases hp : p.promiseISO = ""
    · have a1 : applyPromise ps r = r := by
        unfold applyPromise
        simp only [h, if_pos hp]
      rw [a1]
      exact a1
    · have a1 : applyPromise ps r = { r with PromessaISO := p.promiseISO } := by
        unfold applyPromise
        simp only [h, if_neg hp]
      rw [a1]
      have hk : keyForClientLike { r with PromessaISO := p.promiseISO }
          = keyForClientLike r := rfl
      unfold applyPromise
      rw [hk]
      simp only [h, if_neg hp]

theorem mergePromisesIntoRows_idem (ps : PromMap) (rows : List Row) :
    mergePromisesIntoRows ps (mergePromisesIntoRows ps rows)
      = mergePromisesIntoRows ps rows := by
  induction rows with
  | nil => rfl
  | cons r rest ih =>
    simp only [mergePromisesIntoRows, List.map_cons] at ih ⊢
    rw [applyPromise_idem, ih]

/-! Claim theorems -/

/-- C10.  Frame effect of `upsertPromiseByKey`: storing a payload under
key `k` leaves the payload of every other key unchanged, and upserting
the null payload removes `k`'s entry while leaving every other key's
payload unchanged. -/
theorem upsertPromiseByKey_frame (m : PromMap) (k k' : String) (p : Payload)
    (hne : k' ≠ k) :
    lookupProm k' (upsertPromiseByKey k (some p) m) = lookupProm k' m ∧
    lookupProm k' (upsertPromiseByKey k none m) = lookupProm k' m ∧
    lookupProm k (upsertPromiseByKey k none m) = none :=
  ⟨lookupProm_objAssign_ne k k' p hne m,
   lookupProm_objDelete_ne k k' hne m,
   lookupProm_objDelete_self k m⟩

/-- Witness for C10, at a concrete two-key store. -/
theorem upsertPromiseByKey_frame_witness :
    lookupProm "tel:1198765432100"
        (upsertPromiseByKey "cpf:12345678" (some { promiseISO := "x" })
          [("cpf:12345678", { promiseISO := "a" }),
           ("tel:1198765432100", { promiseISO := "b" })])
      = lookupProm "tel:1198765432100"
          [("cpf:12345678", { promiseISO := "a" }),
           ("tel:1198765432100", { promiseISO := "b" })] ∧
    lookupProm "tel:1198765432100"
        (upsertPromiseByKey "cpf:12345678" none
          [("cpf:12345678", { promiseISO := "a" }),
           ("tel:1198765432100", { promiseISO := "b" })])
      = lookupProm "tel:1198765432100"
          [("cpf:12345678", { promiseISO := "a" }),
           ("tel:1198765432100", { promiseISO := "b" })] ∧
    lookupProm "cpf:12345678"
        (upsertPromiseByKey "cpf:12345678" none
          [("cpf:12345678", { promiseISO := "a" }),
           ("tel:1198765432100", { promiseISO := "b" })])
      = none :=
  upsertPromiseByKey_frame
    [("cpf:12345678", { promiseISO := "a" }),
     ("tel:1198765432100", { promiseISO := "b" })]
    "cpf:12345678" "tel:1198765432100" { promiseISO := "x" } (by decide)

/-- C2.  Composing the working set from a manual-client list, an
imported-row list and a promise store is idempotent: `composeRows` is a
pure function of its inputs, and re-running the promise-overlay
recomposition on the working set it produced changes neither the record
order nor any field value. -/
theorem composeRows_idempotent (clients : List MClient) (promises : PromMap)
    (imported : List Row) :
    mergePromisesIntoRows promises
        (composeRows (manualRowsOf clients) promises imported)
      = composeRows (manualRowsOf clients) promises imported := by
  unfold composeRows
  exact mergePromisesIntoRows_idem promises _

/-- C1 (refuting evaluation).  After the promise payload for key
`cpf:12345678` is deleted and the working set is recomputed exactly as
`removePromiseByKey` does, the store no longer has the key, the single
record still resolves to that key, yet its `PromessaISO` still holds the
deleted promise date: the stale overlay survives the recompute. -/
theorem removePromiseByKey_leaves_stale_overlay :
    lookupProm "cpf:12345678" c1After.promises = none ∧
    c1After.rows = [{ c1Base with PromessaISO := "2025-01-01T00:00:00.000Z" }] ∧
    keyForClientLike (c1After.rows.getD 0 c1Base) = "cpf:12345678" ∧
    (c1After.rows.getD 0 c1Base).PromessaISO ≠ "" := by
  refine ⟨rfl, rfl, rfl, ?_⟩
  decide

theorem daysLate_eq_sub (today d : JDate) (r : Row) (hd : vencDate r = some d) :
    daysLate today r = today.days - d.days := by
  simp only [daysLate, hd]
  have h1 : getTime (midnight today) - getTime (midnight d)
      = (today.days - d.days) * MS_DAY := by
    simp only [getTime, midnight]
    push_cast
    ring
  rw [h1, Int.mul_fdiv_cancel _ (by decide)]

/-- C4.  Identity resolution: at least 8 national-id digits give the
id-based key, else at least 10 phone digits give the phone-based key, else
the key is empty; and the two concrete national-id spellings
`"123.456.789-00"` and `"12345678900"` resolve to the same key. -/
theorem keyForClientLike_resolution :
    (∀ (r : Row),
      (8 ≤ (onlyDigits r.CPF).length →
        keyForClientLike r = "cpf:" ++ onlyDigits r.CPF) ∧
      ((onlyDigits r.CPF).length < 8 → 10 ≤ (onlyDigits r.Telefone).length →
        keyForClientLike r = "tel:" ++ onlyDigits r.Telefone) ∧
      ((onlyDigits r.CPF).length < 8 → (onlyDigits r.Telefone).length < 10 →
        keyForClientLike r = "")) ∧
    keyForClientLike { CPF := "123.456.789-00" }
      = keyForClientLike { CPF := "12345678900" } := by
  constructor
  · intro r
    have hb : keyForClientLike r
        = (if onlyDigits r.CPF ≠ "" ∧ 8 ≤ (onlyDigits r.CPF).length then
            "cpf:" ++ onlyDigits r.CPF
          else if onlyDigits r.Telefone ≠ "" ∧ 10 ≤ (onlyDigits r.Telefone).length then
            "tel:" ++ onlyDigits r.Telefone
          else "") := rfl
    refine ⟨?_, ?_, ?_⟩
    · intro h8
      have hne : onlyDigits r.CPF ≠ "" := by
        intro he
        rw [he] at h8
        exact absurd h8 (by decide)
      rw [hb, if_pos ⟨hne, h8⟩]
    · intro h8 h10
      have hne : onlyDigits r.Telefone ≠ "" := by
        intro he
        rw [he] at h10
        exact absurd h10 (by decide)
      rw [hb, if_neg (fun h => absurd h.2 (by omega)), if_pos ⟨hne, h10⟩]
    · intro h8 h10
      rw [hb, if_neg (fun h => absurd h.2 (by omega)),
        if_neg (fun h => absurd h.2 (by omega))]
  · decide

/-- Witness for C4 at the concrete formatted national id. -/
theorem keyForClientLike_resolution_witness :
    keyForClientLike { CPF := "123.456.789-00" }
      = "cpf:" ++ onlyDigits "123.456.789-00" :=
  (keyForClientLike_resolution.1 { CPF := "123.456.789-00" }).1 (by decide)

/-- C5.  A paid record is never due-today nor overdue, whatever its due
date; and no record is simultaneously due-today and overdue. -/
theorem isPago_suppresses_classification (today : JDate) (r : Row) :
    (isPago r = true → venceHoje today r = false ∧ atrasado today r = false) ∧
    ¬(venceHoje today r = true ∧ atrasado today r = true) := by
  constructor
  · intro hp
    cases hd : vencDate r with
    | none => exact ⟨by simp [venceHoje, hd], by simp [atrasado, hd]⟩
    | some d => exact ⟨by simp [venceHoje, hd, hp], by simp [atrasado, hd, hp]⟩
  · rintro ⟨hv, ha⟩
    cases hd : vencDate r with
    | none => simp [venceHoje, hd] at hv
    | some d =>
      simp only [venceHoje, hd, Bool.and_eq_true] at hv
      simp only [atrasado, hd, Bool.and_eq_true] at ha
      have hs : d.days = today.days := by
        have := hv.1
        simpa [sameDay] using this
      have hl : getTime d < getTime (midnight today) := by
        have := ha.1
        simpa [jdLt] using this
      simp only [getTime, midnight] at hl
      rw [show MS_DAY = 86400000 from by decide] at hl
      push_cast at hl
      omega

/-- Witness for C5: a record marked paid and due today is classified
neither due-today nor overdue. -/
theorem isPago_suppresses_classification_witness :
    venceHoje c5Today c5Paid = false ∧ atrasado c5Today c5Paid = false :=
  (isPago_suppresses_classification c5Today c5Paid).1 (by decide)

/-- C6 counterexample.  A paid record whose due date is the same calendar
day as today has `daysLate = 0` yet is not classified as due-today, so the
claim as stated ("a record with daysLate = 0 and a due-date today is
classified as due-today") fails at this input. -/
theorem daysLate_zero_paid_not_due_today :
    daysLate c6Today c6Paid = 0 ∧
    vencDate c6Paid = some ⟨100, 0⟩ ∧
    sameDay ⟨100, 0⟩ c6Today = true ∧
    venceHoje c6Today c6Paid = false := by
  decide

/-- C6 (amended).  Due today gives `daysLate = 0`; due exactly one
calendar day before today gives `daysLate = 1`; no due date gives
`daysLate = 0`; and an unpaid record with `daysLate = 0` and a due date
today is classified due-today, not overdue. -/
theorem daysLate_boundary (today d : JDate) (r : Row) :
    (vencDate r = some d → d.days = today.days → daysLate today r = 0) ∧
    (vencDate r = some d → d.days + 1 = today.days → daysLate today r = 1) ∧
    (vencDate r = none → daysLate today r = 0) ∧
    (vencDate r = some d → d.days = today.days → isPago r = false →
      venceHoje today r = true ∧ atrasado today r = false) := by
  refine ⟨?_, ?_, ?_, ?_⟩
  · intro hd he
    rw [daysLate_eq_sub today d r hd]
    omega
  · intro hd he
    rw [daysLate_eq_sub today d r hd]
    omega
  · intro hd
    simp [daysLate, hd]
  · intro hd he hp
    constructor
    · simp [venceHoje, hd, sameDay, he, hp]
    · have hlt : jdLt d (midnight today) = false := by
        simp only [jdLt, decide_eq_false_iff_not, not_lt, getTime, midnight]
        rw [show MS_DAY = 86400000 from by decide]
        push_cast
        omega
      simp [atrasado, hd, hlt]

/-- Witness for C6 at concrete dates: due today and due yesterday. -/
theorem daysLate_boundary_witness :
    daysLate c6Today c6Unpaid = 0 ∧ daysLate c6Tomorrow c6Unpaid = 1 ∧
    venceHoje c6Today c6Unpaid = true ∧ atrasado c6Today c6Unpaid = false :=
  ⟨(daysLate_boundary c6Today ⟨100, 7⟩ c6Unpaid).1 (by decide) (by decide),
   (daysLate_boundary c6Tomorrow ⟨100, 7⟩ c6Unpaid).2.1 (by decide) (by decide),
   ((daysLate_boundary c6Today ⟨100, 7⟩ c6Unpaid).2.2.2 (by decide) (by decide)
     (by decide)).1,
   ((daysLate_boundary c6Today ⟨100, 7⟩ c6Unpaid).2.2.2 (by decide) (by decide)
     (by decide)).2⟩

/-- C3.  `findHeaderRow` returns the first row (within the 25-row scan
window) containing both an id-labelled and a name-labelled cell; when no
such row exists it returns the first row with at least 3 non-empty cells;
otherwise it returns 0. -/
theorem findHeaderRow_spec (aoa : List (List Cell)) :
    (∀ i, i < min 25 aoa.length → rowBoth (aoa.getD i []) = true →
      (∀ j, j < i → rowBoth (aoa.getD j []) = false) →
      findHeaderRow aoa = i) ∧
    ((∀ i, i < min 25 aoa.length → rowBoth (aoa.getD i []) = false) →
      ∀ i, i < min 25 aoa.length → 3 ≤ filledCount (aoa.getD i []) →
        (∀ j, j < i → filledCount (aoa.getD j []) < 3) →
        findHeaderRow aoa = i) ∧
    ((∀ i, i < min 25 aoa.length → rowBoth (aoa.getD i []) = false) →
      (∀ i, i < min 25 aoa.length → filledCount (aoa.getD i []) < 3) →
      findHeaderRow aoa = 0) := by
  have hbr : findHeaderRow aoa
      = (match firstIdxAux (fun i => rowBoth (aoa.getD i [])) 0
            (min 25 aoa.length) with
        | some i => i
        | none =>
          match firstIdxAux (fun i => decide (3 ≤ filledCount (aoa.getD i []))) 0
              (min 25 aoa.length) with
          | some i => i
          | none => 0) := rfl
  refine ⟨?_, ?_, ?_⟩
  · intro i hi hb hmin
    have h1 : firstIdxAux (fun i => rowBoth (aoa.getD i [])) 0
        (min 25 aoa.length) = some i :=
      firstIdxAux_eq_some (fun i => rowBoth (aoa.getD i []))
        (min 25 aoa.length) 0 i (Nat.zero_le i) (by omega) hb
        (fun k _ hk => hmin k hk)
    rw [hbr, h1]
  · intro hnone i hi h3 hmin
    have h1 : firstIdxAux (fun i => rowBoth (aoa.getD i [])) 0
        (min 25 aoa.length) = none :=
      firstIdxAux_eq_none (fun i => rowBoth (aoa.getD i []))
        (min 25 aoa.length) 0 (fun k _ hk => hnone k (by omega))
    have h2 : firstIdxAux (fun i => decide (3 ≤ filledCount (aoa.getD i []))) 0
        (min 25 aoa.length) = some i :=
      firstIdxAux_eq_some (fun i => decide (3 ≤ filledCount (aoa.getD i [])))
        (min 25 aoa.length) 0 i (Nat.zero_le i) (by omega)
        (by simp only [decide_eq_true_eq]; exact h3)
        (fun k _ hk => by
          simp only [decide_eq_false_iff_not, not_le]
          exact hmin k hk)
    rw [hbr, h1, h2]
  · intro hnone h3
    have h1 : firstIdxAux (fun i => rowBoth (aoa.getD i [])) 0
        (min 25 aoa.length) = none :=
      firstIdxAux_eq_none (fun i => rowBoth (aoa.getD i []))
        (min 25 aoa.length) 0 (fun k _ hk => hnone k (by omega))
    have h2 : firstIdxAux (fun i => decide (3 ≤ filledCount (aoa.getD i []))) 0
        (min 25 aoa.length) = none :=
      firstIdxAux_eq_none (fun i => decide (3 ≤ filledCount (aoa.getD i [])))
        (min 25 aoa.length) 0 (fun k _ hk => by
          simp only [decide_eq_false_iff_not, not_le]
          exact h3 k (by omega))
    rw [hbr, h1, h2]

/-- Witness for C3: a banner row followed by the true header row. -/
theorem findHeaderRow_spec_witness : findHeaderRow c3Aoa = 1 :=
  (findHeaderRow_spec c3Aoa).1 1 (by decide) (by decide) (by decide)

theorem map_filter_map_eq_filterMap {α β γ : Type} (f : α → β) (q : β → Bool)
    (g : β → γ) :
    ∀ (l : List α), ((l.map f).filter q).map g
      = l.filterMap (fun x => if q (f x) then some (g (f x)) else none) := by
  intro l
  induction l with
  | nil => rfl
  | cons a rest ih =>
    by_cases h : q (f a) = true
    · simp [List.filter_cons, h, ih]
    · have h' : q (f a) = false := by
        cases hh : q (f a)
        · rfl
        · exact absurd hh h
      simp [List.filter_cons, h', ih]

theorem phoneKeep_eq (d : String) :
    (!(d == "") && decide (10 ≤ d.length)) = decide (10 ≤ d.length) := by
  by_cases h : d = ""
  · subst h
    rfl
  · have hb : (d == "") = false := by simp [h]
    simp [hb]

theorem quebrasFilter_eq (today : JDate) (r : Row) :
    quebrasFilter today r
      = (atrasado today r && !isPago r && decide (5 < daysLate today r)) := by
  cases ha : atrasado today r <;> cases hp : isPago r <;>
    cases hd : decide (5 < daysLate today r) <;>
    simp [quebrasFilter, ha, hp, hd]

/-- C7.  Breach-mode bulk selection returns exactly the normalised phones
of the overdue, unpaid, more-than-5-days-late records, in view order; and
on the concrete 5-record view with two breach records (6 and 10 days
late), it returns exactly those two phones. -/
theorem selectPhonesBreach_exact :
    (∀ (today : JDate) (view : List Row),
      copyBulkQuebras today view = joinLines (selectPhonesBreachSpec today view)) ∧
    copyBulkQuebras c7Today c7View = "5511999990000\n5511988880000" := by
  constructor
  · intro today view
    unfold copyBulkQuebras bulkPhones selectPhonesBreachSpec
    have hf : (quebrasFilter today)
        = (fun r => atrasado today r && !isPago r && decide (5 < daysLate today r)) :=
      funext (quebrasFilter_eq today)
    rw [hf]
    rw [map_filter_map_eq_filterMap (fun r : Row => onlyDigits r.Telefone)
      (fun d => !(d == "") && decide (10 ≤ d.length))
      (fun d => if strLeads d "55" then d else "55" ++ d)]
    exact congrArg joinLines
      (@List.filterMap_congr Row String
        (fun x => if (!(onlyDigits x.Telefone == "")
            && decide (10 ≤ (onlyDigits x.Telefone).length)) then
            some (if strLeads (onlyDigits x.Telefone) "55" then onlyDigits x.Telefone
              else "55" ++ onlyDigits x.Telefone)
          else none)
        (fun r => fmtPhone r.Telefone)
        (view.filter
          (fun r => atrasado today r && !isPago r && decide (5 < daysLate today r)))
        (fun x _ => by
          simp only []
          rw [phoneKeep_eq (onlyDigits x.Telefone)]
          simp [fmtPhone]))
  · decide

/-- C8.  A raw row maps to a record the import pipeline drops iff its
selected national-id, name and phone cells are all empty after trimming;
survival is independent of the ambient date parser (and hence of the
amount and due-date cells being parseable). -/
theorem mapRow_drop_iff (gp gp' : String → Option JDate)
    (raw : List (String × Cell)) :
    (keepRow (mapRow gp raw) = false ↔
      (jsTrim (cellToString (getBy cpfKey raw)) = "" ∧
       jsTrim (cellToString (getBy nomeKey raw)) = "" ∧
       jsTrim (cellToString (getBy telKey raw)) = "")) ∧
    keepRow (mapRow gp raw) = keepRow (mapRow gp' raw) := by
  constructor
  · simp [keepRow, mapRow, and_assoc]
  · rfl

/-- C9.  The WhatsApp link builder yields a (non-empty) deep link iff the
digits of the phone, with "55" forced in front, reach 12 digits; below
that it returns the empty string. -/
theorem buildWhatsLinkBR_valid_iff (enc : String → String) (tel msg : String) :
    ((forced55 tel).length < 12 → buildWhatsLinkBR enc tel msg = "") ∧
    (12 ≤ (forced55 tel).length →
      buildWhatsLinkBR enc tel msg
        = "https://wa.me/" ++ forced55 tel ++ "?text=" ++ enc msg ∧
      buildWhatsLinkBR enc tel msg ≠ "") := by
  have hb : buildWhatsLinkBR enc tel msg
      = (if (forced55 tel).length < 12 then ""
        else "https://wa.me/" ++ forced55 tel ++ "?text=" ++ enc msg) := rfl
  constructor
  · intro h
    rw [hb, if_pos h]
  · intro h
    have h' : ¬ (forced55 tel).length < 12 := by omega
    refine ⟨by rw [hb, if_neg h'], ?_⟩
    rw [hb, if_neg h']
    intro hc
    have hlen := congrArg String.length hc
    simp only [String.length_append] at hlen
    rw [show ("" : String).length = 0 from rfl] at hlen
    omega

/-- Witness for C9 at a concrete 11-digit phone (13 digits once "55" is
forced). -/
theorem buildWhatsLinkBR_valid_iff_witness :
    buildWhatsLinkBR (fun s => s) "11 99999-0000" "ola"
      = "https://wa.me/5511999990000?text=ola" := by
  have h := (buildWhatsLinkBR_valid_iff (fun s => s) "11 99999-0000" "ola").2
    (by decide)
  rw [h.1]
  decide

end Acordos
